import Mathlib

/-!
Shallow embedding of the Instagram-downloader service
(`utlis/downloader.py`, `app.py`, `config.py`).

Python strings are modelled as `List Char` (`Str`).  Helpers from the
Python standard library that the code calls (`str.strip`, `str.lower`,
the `re` module, `urllib` percent-quoting) are embedded as executable
Lean functions over the ASCII fragment that the repository's string
literals live in.  Network and HTML-parsing effects (requests, soup)
are modelled as explicit parameters: the environment maps a request URL
to a fetch outcome, and a fetched page is the parsed document
abstraction (title, anchors with class/href/text, video sources).
-/

namespace IgDl

abbrev Str := List Char

/-- Python `pat in s` substring test. -/
def occursIn (pat : Str) : Str → Bool
  | [] => pat.isEmpty
  | c :: rest => pat.isPrefixOf (c :: rest) || occursIn pat rest

/-- ASCII whitespace stripped by Python `str.strip()` and matched by `\s`. -/
def pySpace (c : Char) : Bool :=
  c == ' ' || c == '\t' || c == '\n' || c == '\r' || c == '\x0b' || c == '\x0c'

/-- Python `str.strip()` (ASCII whitespace fragment). -/
def pyStrip (s : Str) : Str :=
  ((s.dropWhile pySpace).reverse.dropWhile pySpace).reverse

/-- Python `str.lower()` (ASCII fragment). -/
def lower (s : Str) : Str := s.map Char.toLower

/-- Python `str.upper()` (ASCII fragment). -/
def upperStr (s : Str) : Str := s.map Char.toUpper

/-! ### A small regular-expression language (for `re.match`) -/

/-- Regular expressions: empty language, empty word, character class,
concatenation, alternation, Kleene star. -/
inductive RE where
  | emp : RE
  | eps : RE
  | cls : (Char → Bool) → RE
  | cat : RE → RE → RE
  | alt : RE → RE → RE
  | star : RE → RE

def RE.nullable : RE → Bool
  | .emp => false
  | .eps => true
  | .cls _ => false
  | .cat r s => r.nullable && s.nullable
  | .alt r s => r.nullable || s.nullable
  | .star _ => true

def RE.deriv : RE → Char → RE
  | .emp, _ => .emp
  | .eps, _ => .emp
  | .cls p, c => if p c then .eps else .emp
  | .cat r s, c =>
    if r.nullable then .alt (.cat (r.deriv c) s) (s.deriv c) else .cat (r.deriv c) s
  | .alt r s, c => .alt (r.deriv c) (s.deriv c)
  | .star r, c => .cat (r.deriv c) (.star r)

/-- Does some prefix of `s` belong to the language of `r`?  This is the
truthiness of Python `re.match(r, s)` (matching anchored at the start,
not at the end). -/
def RE.matchesPfx : RE → Str → Bool
  | r, [] => r.nullable
  | r, c :: s => r.nullable || RE.matchesPfx (r.deriv c) s

/-- Literal string as a regex. -/
def reLit (s : Str) : RE :=
  s.foldr (fun c r => .cat (.cls (fun x => x == c)) r) .eps

/-- `r?` -/
def reOpt (r : RE) : RE := .alt .eps r

/-- `r+` -/
def rePlus (r : RE) : RE := .cat r (.star r)

/-! ### `InstagramDownloader.sanitize_url` -/

/-- Character class `[A-Za-z0-9_-]` of the first accepted pattern. -/
def idChar : RE := .cls (fun c => c.isAlpha || c.isDigit || c == '_' || c == '-')

/-- Character class `[A-Za-z0-9_.]` of the second accepted pattern. -/
def profChar : RE := .cls (fun c => c.isAlpha || c.isDigit || c == '_' || c == '.')

/-- Regex `.` (any character except newline). -/
def anyCh : RE := .cls (fun c => !(c == '\n'))

/-- First source pattern:
`https?://(www\.)?instagram\.com/(p|reel|reels|stories|story|tv)/[A-Za-z0-9_-]+/?` -/
def pattern1 : RE :=
  .cat (reLit ("http".data))
    (.cat (reOpt (reLit ("s".data)))
      (.cat (reLit ("://".data))
        (.cat (reOpt (reLit ("www.".data)))
          (.cat (reLit ("instagram.com/".data))
            (.cat (.alt (reLit ("p".data))
                    (.alt (reLit ("reel".data))
                      (.alt (reLit ("reels".data))
                        (.alt (reLit ("stories".data))
                          (.alt (reLit ("story".data)) (reLit ("tv".data)))))))
              (.cat (reLit ("/".data))
                (.cat (rePlus idChar) (reOpt (reLit ("/".data))))))))))

/-- Second source pattern:
`https?://(www\.)?instagram\.com/[A-Za-z0-9_.]+/?(?:\?.*)?` -/
def pattern2 : RE :=
  .cat (reLit ("http".data))
    (.cat (reOpt (reLit ("s".data)))
      (.cat (reLit ("://".data))
        (.cat (reOpt (reLit ("www.".data)))
          (.cat (reLit ("instagram.com/".data))
            (.cat (rePlus profChar)
              (.cat (reOpt (reLit ("/".data)))
                (reOpt (.cat (.cls (fun c => c == '?')) (.star anyCh)))))))))

/-- Python `url.split('?')[0].split('#')[0]`: drop query and fragment. -/
def stripQF (url : Str) : Str :=
  (url.takeWhile (fun c => !(c == '?'))).takeWhile (fun c => !(c == '#'))

/-- `InstagramDownloader.sanitize_url`: strip query/fragment, then try the
two accepted patterns in order with `re.match`; on a match return the
stripped URL (else `None`). -/
def sanitize_url (url : Str) : Option Str :=
  let u := stripQF url
  if pattern1.matchesPfx u then some (pyStrip u)
  else if pattern2.matchesPfx u then some (pyStrip u)
  else none

/-- The accepted URL grammar as the spec describes it: the
query/fragment-stripped input matches (prefix-anchored) one of the two
accepted shapes. -/
def acceptedGrammar (u : Str) : Bool :=
  pattern1.matchesPfx u || pattern2.matchesPfx u

/-! ### `InstagramDownloader.get_media_type` -/

/-- `InstagramDownloader.get_media_type`: substring tests in source order. -/
def get_media_type (url : Str) : Str :=
  if occursIn ("/reel/".data) url || occursIn ("/reels/".data) url then ("reel".data)
  else if occursIn ("/stories/".data) url || occursIn ("/story/".data) url then ("story".data)
  else if occursIn ("/tv/".data) url then ("igtv".data)
  else if occursIn ("/p/".data) url then ("post".data)
  else ("unknown".data)

/-- Classification rules as the spec presents them: an ordered rule list,
first rule whose substrings hit wins, default unknown. -/
def classifyRules : List (List Str × Str) :=
  [([("/reel/".data), ("/reels/".data)], ("reel".data)),
   ([("/stories/".data), ("/story/".data)], ("story".data)),
   ([("/tv/".data)], ("igtv".data)),
   ([("/p/".data)], ("post".data))]

/-- Spec-side classifier: first matching rule of `classifyRules`. -/
def classify_spec (url : Str) : Str :=
  match classifyRules.find? (fun r => r.1.any (fun p => occursIn p url)) with
  | some r => r.2
  | none => ("unknown".data)

/-! ### `InstagramDownloader._extract_quality` and `_extract_size` -/

/-- The ordered quality token list of the source. -/
def qualityTokens : List Str :=
  [("hd".data), ("high".data), ("720p".data), ("1080p".data),
   ("4k".data), ("sd".data), ("low".data)]

/-- `InstagramDownloader._extract_quality`: first token of the ordered
list occurring in the text, default `standard`. -/
def extract_quality (text : Str) : Str :=
  match qualityTokens.find? (fun q => occursIn q text) with
  | some q => q
  | none => ("standard".data)

/-- Case-insensitive match of the unit alternation `MB|KB|GB` at the
start of `s`; returns the two matched characters and the rest. -/
def matchUnit : Str → Option (Str × Str)
  | c1 :: c2 :: rest =>
    if (c1.toUpper == 'M' || c1.toUpper == 'K' || c1.toUpper == 'G') && c2.toUpper == 'B' then
      some ([c1, c2], rest)
    else none
  | _ => none

/-- Match of `(\d+(?:\.\d+)?)\s*(MB|KB|GB)` anchored at the start of `s`,
returning the rendered `f"{group(1)} {group(2).upper()}"`.  Greedy
maximal munch is exact here because no digit can start the following
regex parts. -/
def matchSizeAt (s : Str) : Option Str :=
  let d := s.takeWhile Char.isDigit
  if d.isEmpty then none
  else
    let r1 := s.dropWhile Char.isDigit
    let withDec : Option Str :=
      match r1 with
      | '.' :: r2 =>
        let d2 := r2.takeWhile Char.isDigit
        if d2.isEmpty then none
        else
          match matchUnit ((r2.dropWhile Char.isDigit).dropWhile pySpace) with
          | some u => some (d ++ '.' :: d2 ++ ' ' :: upperStr u.1)
          | none => none
      | _ => none
    match withDec with
    | some res => some res
    | none =>
      match matchUnit (r1.dropWhile pySpace) with
      | some u => some (d ++ ' ' :: upperStr u.1)
      | none => none

/-- Leftmost search of the size pattern (Python `re.search`). -/
def sizeSearch : Str → Option Str
  | [] => none
  | c :: rest =>
    match matchSizeAt (c :: rest) with
    | some r => some r
    | none => sizeSearch rest

/-- `InstagramDownloader._extract_size`. -/
def extract_size (text : Str) : Str :=
  match sizeSearch text with
  | some r => r
  | none => ("unknown".data)

/-- All suffixes of a string, leftmost position first (spec side). -/
def tailsOf : Str → List Str
  | [] => [[]]
  | c :: rest => (c :: rest) :: tailsOf rest

/-- Spec-side size extraction: the first (leftmost) position at which the
number-plus-unit pattern matches decides the result; no position,
`unknown`. -/
def size_spec (t : Str) : Str :=
  match (tailsOf t).find? (fun s => (matchSizeAt s).isSome) with
  | some s =>
    match matchSizeAt s with
    | some r => r
    | none => ("unknown".data)
  | none => ("unknown".data)

/-! ### The HTML extractor (`download_from_snapdownloader`)

The parsed document is abstracted as a `Page`: the optional `<title>`
text, the anchors in document order (CSS classes, raw `href` attribute,
node text), and the `src` attributes of `video source` elements.  CSS
selection becomes a decidable predicate on anchors; `html.unescape` is
an opaque standard-library string transform and is passed in as a
parameter `unesc`. -/

structure Anchor where
  classes : List Str
  href : Option Str
  text : Str
deriving DecidableEq

structure Page where
  title : Option Str
  anchors : List Anchor
  sources : List (Option Str)
deriving DecidableEq

structure MediaItem where
  url : Str
  type : Str
  quality : Str
  size : Str
deriving DecidableEq

/-- Matches the selector list `a.btn-download, a.download-button, a[href*='.mp4']`. -/
def videoSelMatch (a : Anchor) : Bool :=
  a.classes.contains ("btn-download".data) || a.classes.contains ("download-button".data) ||
    (match a.href with
     | some h => occursIn (".mp4".data) h
     | none => false)

/-- Matches `a.btn-download, a.download-button, a[href*='.jpg'], a[href*='.jpeg'], a[href*='.png']`. -/
def imageSelMatch (a : Anchor) : Bool :=
  a.classes.contains ("btn-download".data) || a.classes.contains ("download-button".data) ||
    (match a.href with
     | some h => occursIn (".jpg".data) h || occursIn (".jpeg".data) h || occursIn (".png".data) h
     | none => false)

/-- The video pass of the extractor. -/
def videoCandidates (unesc : Str → Str) (anchors : List Anchor) : List MediaItem :=
  (anchors.filter videoSelMatch).filterMap (fun a =>
    let href := unesc (a.href.getD [])
    let text := lower (pyStrip a.text)
    if href.isEmpty then none
    else if occursIn (".mp4".data) href || occursIn ("video".data) text then
      some ⟨href, ("video".data), extract_quality text, extract_size text⟩
    else none)

/-- The image pass of the extractor. -/
def imageCandidates (unesc : Str → Str) (anchors : List Anchor) : List MediaItem :=
  (anchors.filter imageSelMatch).filterMap (fun a =>
    let href := unesc (a.href.getD [])
    let text := lower (pyStrip a.text)
    if href.isEmpty then none
    else if occursIn (".jpg".data) href || occursIn (".jpeg".data) href ||
        occursIn (".png".data) href then
      some ⟨href, ("image".data), extract_quality text, extract_size text⟩
    else none)

/-- The `video source` pass of the extractor. -/
def sourceCandidates (unesc : Str → Str) (sources : List (Option Str)) : List MediaItem :=
  sources.filterMap (fun s =>
    let src := unesc (s.getD [])
    if src.isEmpty then none
    else if occursIn (".mp4".data) src then
      some ⟨src, ("video".data), ("unknown".data), ("unknown".data)⟩
    else none)

/-- All candidate media items in the order the source collects them. -/
def extractCandidates (unesc : Str → Str) (page : Page) : List MediaItem :=
  videoCandidates unesc page.anchors ++ imageCandidates unesc page.anchors ++
    sourceCandidates unesc page.sources

/-- The dedup loop: `seen_urls` set plus order-preserving append. -/
def dedupByUrl : List MediaItem → List Str → List MediaItem
  | [], _ => []
  | item :: rest, seen =>
    if seen.contains item.url then dedupByUrl rest seen
    else item :: dedupByUrl rest (item.url :: seen)

/-- The deduplicated media list of a parsed page. -/
def uniqueItems (unesc : Str → Str) (page : Page) : List MediaItem :=
  dedupByUrl (extractCandidates unesc page) []

/-- Result of one downloader call: `{"status": "success", ...}` or
`{"status": "error", "message": ...}`. -/
inductive DLResult where
  | success (media : List MediaItem) (title : Option Str) (count : Nat)
  | error (message : Str)
deriving DecidableEq

/-- Outcome of the `session.get` on the third-party page: an HTTP
response carrying the parsed document, a timeout, or any other raised
exception with its message. -/
inductive FetchOutcome where
  | ok (status : Nat) (page : Page)
  | timeout
  | exn (message : Str)

/-- `requests.utils.quote(url, safe="")`: percent-encode every UTF-8
byte outside `[A-Za-z0-9_.~-]`. -/
def utf8Bytes (c : Char) : List Nat :=
  let v := c.toNat
  if v < 0x80 then [v]
  else if v < 0x800 then [0xC0 + v / 64, 0x80 + v % 64]
  else if v < 0x10000 then [0xE0 + v / 4096, 0x80 + (v / 64) % 64, 0x80 + v % 64]
  else [0xF0 + v / 262144, 0x80 + (v / 4096) % 64, 0x80 + (v / 64) % 64, 0x80 + v % 64]

def hexDigit (n : Nat) : Char := ("0123456789ABCDEF".data).getD n '0'

def quoteChar (c : Char) : Str :=
  if c.isAlpha || c.isDigit || c == '_' || c == '.' || c == '-' || c == '~' then [c]
  else (utf8Bytes c).flatMap (fun b => ['%', hexDigit (b / 16), hexDigit (b % 16)])

def pctQuote (s : Str) : Str := s.flatMap quoteChar

def natToStr (n : Nat) : Str := (Nat.repr n).data

/-- Core of `download_from_snapdownloader` after the fetch: error paths
for timeout / raised exception / non-200, else metadata, scans, dedup,
and the success-or-no-media result. -/
def processFetch (unesc : Str → Str) (outcome : FetchOutcome) : DLResult :=
  match outcome with
  | .timeout => .error ("Request timeout".data)
  | .exn m => .error m
  | .ok status page =>
    if status ≠ 200 then .error (("Failed to load page: ".data) ++ natToStr status)
    else
      let unique := dedupByUrl (extractCandidates unesc page) []
      if unique.isEmpty then .error ("No media found".data)
      else .success unique (page.title.map pyStrip) unique.length

/-- `InstagramDownloader.download_from_snapdownloader`: build the target
URL from the endpoint and the percent-quoted input URL, fetch it in the
environment `env`, and process the outcome. -/
def download_from_snapdownloader (env : Str → FetchOutcome) (unesc : Str → Str)
    (url downloader_url : Str) : DLResult :=
  processFetch unesc (env (downloader_url ++ pctQuote url))

/-! ### Config endpoints and the orchestrator (`get_all`) -/

def REEL_DOWNLOADER : Str :=
  ("https://snapdownloader.com/tools/instagram-reels-downloader/download?url=".data)
def STORY_DOWNLOADER : Str :=
  ("https://snapdownloader.com/tools/instagram-story-downloader/download?url=".data)
def POST_DOWNLOADER : Str :=
  ("https://snapdownloader.com/tools/instagram-photo-downloader/download?url=".data)
def IGTV_DOWNLOADER : Str :=
  ("https://snapdownloader.com/tools/instagram-igtv-downloader/download?url=".data)

def get_reel (env : Str → FetchOutcome) (unesc : Str → Str) (url : Str) : DLResult :=
  download_from_snapdownloader env unesc url REEL_DOWNLOADER
def get_story (env : Str → FetchOutcome) (unesc : Str → Str) (url : Str) : DLResult :=
  download_from_snapdownloader env unesc url STORY_DOWNLOADER
def get_post (env : Str → FetchOutcome) (unesc : Str → Str) (url : Str) : DLResult :=
  download_from_snapdownloader env unesc url POST_DOWNLOADER
def get_igtv (env : Str → FetchOutcome) (unesc : Str → Str) (url : Str) : DLResult :=
  download_from_snapdownloader env unesc url IGTV_DOWNLOADER

def statusIsSuccess : DLResult → Bool
  | .success _ _ _ => true
  | .error _ => false

/-- The fallback loop of `get_all`: return the first success, else the
generic error. -/
def tryFuncs : List DLResult → DLResult
  | [] => .error ("Unable to download media".data)
  | r :: rest => if statusIsSuccess r then r else tryFuncs rest

/-- `InstagramDownloader.get_all`. -/
def get_all (env : Str → FetchOutcome) (unesc : Str → Str) (url : Str) : DLResult :=
  let mt := get_media_type url
  if mt = ("reel".data) then get_reel env unesc url
  else if mt = ("story".data) then get_story env unesc url
  else if mt = ("igtv".data) then get_igtv env unesc url
  else if mt = ("post".data) then get_post env unesc url
  else tryFuncs [get_reel env unesc url, get_post env unesc url, get_igtv env unesc url]

/-- Spec-side `resolveByType`: map an explicit classification to the
matching endpoint call. -/
def resolveByType (env : Str → FetchOutcome) (unesc : Str → Str) (ty url : Str) : DLResult :=
  if ty = ("reel".data) then get_reel env unesc url
  else if ty = ("story".data) then get_story env unesc url
  else if ty = ("igtv".data) then get_igtv env unesc url
  else get_post env unesc url

/-- Spec-side `resolveAuto`: classify; delegate when the type is known;
when unknown, first success of reel, then post, then igtv (story never
attempted), else the generic error. -/
def resolveAuto_spec (env : Str → FetchOutcome) (unesc : Str → Str) (url : Str) : DLResult :=
  let ty := get_media_type url
  if ty = ("unknown".data) then
    match ([get_reel env unesc url, get_post env unesc url,
            get_igtv env unesc url].find? statusIsSuccess) with
    | some r => r
    | none => .error ("Unable to download media".data)
  else resolveByType env unesc ty url

/-! ### The rate limiter (`app.check_rate_limit`, `app.before_request`) -/

/-- The `request_counts` dict: per-IP `{'count': ..., 'timestamp': ...}`,
insertion-ordered. -/
abbrev RLState := List (Str × Nat × Int)

def lookupRL (st : RLState) (ip : Str) : Option (Nat × Int) :=
  match st.find? (fun e => e.1 == ip) with
  | some e => some e.2
  | none => none

/-- `request_counts[ip] = v`: replace in place, insert at the end if new. -/
def setRL : RLState → Str → Nat × Int → RLState
  | [], ip, v => [(ip, v)]
  | e :: rest, ip, v => if e.1 == ip then (ip, v) :: rest else e :: setRL rest ip v

/-- `app.check_rate_limit(ip)` at time `now`: admit-and-count, reset the
window after more than 3600 seconds, reject at 100. -/
def check_rate_limit (st : RLState) (ip : Str) (now : Int) : Bool × RLState :=
  match lookupRL st ip with
  | none => (true, setRL st ip (1, now))
  | some (count, ts) =>
    if now - ts > 3600 then (true, setRL st ip (1, now))
    else if count ≥ 100 then (false, st)
    else (true, setRL st ip (count + 1, ts))

/-- `app.before_request`: skip `/health`, else a 429 JSON error when the
rate limit rejects. -/
def before_request (st : RLState) (path ip : Str) (now : Int) :
    Option (Nat × Str) × RLState :=
  if path = ("/health".data) then (none, st)
  else
    match check_rate_limit st ip now with
    | (true, st2) => (none, st2)
    | (false, st2) =>
      (some (429, ("Rate limit exceeded. Please try again later.".data)), st2)

/-- Run a sequence of same-IP requests through the limiter, collecting
the admit/reject decisions. -/
def runSeq (st : RLState) (ip : Str) : List Int → List Bool × RLState
  | [] => ([], st)
  | t :: ts =>
    let p := check_rate_limit st ip t
    let q := runSeq p.2 ip ts
    (p.1 :: q.1, q.2)

/-! ### The proxy endpoint (`app.proxy_download`) -/

/-- Outcome of the remote `requests.get(media_url, ...)`: a response with
status and optional Content-Type header, or a raised exception. -/
inductive RemoteResult where
  | resp (status : Nat) (contentType : Option Str)
  | raises (message : Str)

inductive ProxyResponse where
  | badRequest (message : Str)
  | upstreamError (message : Str)
  | fileResponse (name : Str) (mimetype : Str)
  | serverError (message : Str)
deriving DecidableEq

def proxyExts : List Str :=
  [(".mp4".data), (".jpg".data), (".jpeg".data), (".png".data)]

/-- Python `media_url.split('/')[-1]`. -/
def lastSeg (s : Str) : Str := (s.reverse.takeWhile (fun c => !(c == '/'))).reverse

/-- `app.proxy_download`: missing-url 400, extension allowlist 400,
remote fetch, non-200 500, else the streamed file. -/
def proxy_download (remote : Str → RemoteResult) (urlParam : Option Str) : ProxyResponse :=
  match urlParam with
  | none => .badRequest ("Please provide \x27url\x27 parameter".data)
  | some media_url =>
    if !(proxyExts.any (fun e => occursIn e (lower media_url))) then
      .badRequest ("Invalid media URL".data)
    else
      match remote media_url with
      | .raises m => .serverError (("Server error: ".data) ++ m)
      | .resp status ct =>
        if status ≠ 200 then
          .upstreamError (("Failed to download media: ".data) ++ natToStr status)
        else .fileResponse (lastSeg media_url) (ct.getD ("application/octet-stream".data))

/-! ## Helper lemmas -/

/-- `List.find?` returns the element at the first index where the
predicate holds. -/
theorem find?_eq_of_first {α : Type} : ∀ (l : List α) (p : α → Bool) (n : Nat)
    (h : n < l.length), p (l.get ⟨n, h⟩) = true →
    (∀ m (hm : m < l.length), m < n → p (l.get ⟨m, hm⟩) = false) →
    l.find? p = some (l.get ⟨n, h⟩)
  | [], _, n, h => absurd h (by simp)
  | a :: l, p, 0, h => fun hp _ => by
      simp only [List.get] at hp ⊢
      exact List.find?_cons_of_pos _ hp
  | a :: l, p, n + 1, h => fun hp hm => by
      have ha : p a = false := hm 0 (by simp) (by omega)
      have h2 : n < l.length := by simp [List.length_cons] at h; omega
      rw [List.find?_cons_of_neg _ (by simp [ha])]
      exact find?_eq_of_first l p n h2 hp
        (fun m hmlt hlt => hm (m + 1) (by simp [List.length_cons]; omega) (by omega))

/-! ## C1 -/

/-- C1: an input whose query/fragment-stripped form matches the accepted
URL grammar (prefix-anchored post/reel/story/tv pattern or bare profile
pattern) is sanitized to that stripped, trimmed string, and every other
input yields `none`; concrete instances included. -/
theorem c1_sanitize_url_spec :
    (∀ url : Str, sanitize_url url =
       (if acceptedGrammar (stripQF url) then some (pyStrip (stripQF url)) else none))
    ∧ sanitize_url ("https://www.instagram.com/reel/ABC123/?igsh=xyz".data)
        = some ("https://www.instagram.com/reel/ABC123/".data)
    ∧ sanitize_url ("https://instagram.com/someuser".data)
        = some ("https://instagram.com/someuser".data)
    ∧ sanitize_url ("not-a-url".data) = none
    ∧ sanitize_url ("https://example.com/reel/ABC".data) = none := by
  refine ⟨fun url => ?_, by decide, by decide, by decide, by decide⟩
  unfold sanitize_url acceptedGrammar
  cases h1 : RE.matchesPfx pattern1 (stripQF url) <;>
    cases h2 : RE.matchesPfx pattern2 (stripQF url) <;> simp [h1, h2]

/-! ## C2 -/

/-- C2: `get_media_type` agrees with the spec's ordered-rule classifier
(reel/reels, then story/stories, then tv, then p, default unknown) on
every URL string, and the spec's concrete examples classify as stated;
the function is pure by construction. -/
theorem c2_get_media_type_spec :
    (∀ url : Str, get_media_type url = classify_spec url)
    ∧ get_media_type ("https://instagram.com/reel/ABC123/".data) = ("reel".data)
    ∧ get_media_type ("https://instagram.com/stories/user/123/".data) = ("story".data)
    ∧ get_media_type ("https://instagram.com/tv/XYZ/".data) = ("igtv".data)
    ∧ get_media_type ("https://instagram.com/p/ABC/".data) = ("post".data)
    ∧ get_media_type ("https://instagram.com/someuser/".data) = ("unknown".data) := by
  refine ⟨fun url => ?_, by decide, by decide, by decide, by decide, by decide⟩
  unfold get_media_type classify_spec classifyRules
  cases h1 : occursIn ("/reel/".data) url <;>
  cases h2 : occursIn ("/reels/".data) url <;>
  cases h3 : occursIn ("/stories/".data) url <;>
  cases h4 : occursIn ("/story/".data) url <;>
  cases h5 : occursIn ("/tv/".data) url <;>
  cases h6 : occursIn ("/p/".data) url <;>
  simp [List.find?, h1, h2, h3, h4, h5, h6]

/-! ## C3 -/

/-- C3: `extract_quality` returns the first token of the ordered list
`[hd, high, 720p, 1080p, 4k, sd, low]` occurring in the (lowercased)
text, defaults to `standard` when none occurs, and on the lowercased
text of "Download HD 1080p" returns `hd`, not `1080p`. -/
theorem c3_extract_quality_spec :
    (∀ text : Str, (∀ q ∈ qualityTokens, occursIn q text = false) →
        extract_quality text = ("standard".data))
    ∧ (∀ (text : Str) (n : Fin qualityTokens.length),
        occursIn (qualityTokens.get n) text = true →
        (∀ m : Fin qualityTokens.length, m < n → occursIn (qualityTokens.get m) text = false) →
        extract_quality text = qualityTokens.get n)
    ∧ extract_quality (lower ("Download HD 1080p".data)) = ("hd".data)
    ∧ extract_quality (lower ("Download HD 1080p".data)) ≠ ("1080p".data)
    ∧ qualityTokens = [("hd".data), ("high".data), ("720p".data), ("1080p".data),
        ("4k".data), ("sd".data), ("low".data)] := by
  refine ⟨fun text h => ?_, fun text n h1 h2 => ?_, by decide, by decide, rfl⟩
  · unfold extract_quality
    rw [List.find?_eq_none.2 (fun x hx => by simp [h x hx])]
  · unfold extract_quality
    rw [find?_eq_of_first _ _ n.1 n.2 h1
      (fun m hm hlt => h2 ⟨m, hm⟩ (by simpa [Fin.lt_def] using hlt))]

/-- C3 witness: the first-match rule applied at concrete inputs. -/
theorem c3_extract_quality_witness :
    extract_quality ("zzz".data) = ("standard".data)
    ∧ extract_quality ("xx720p".data) = qualityTokens.get ⟨2, by decide⟩ := by
  refine ⟨c3_extract_quality_spec.1 ("zzz".data) (by decide),
    c3_extract_quality_spec.2.1 ("xx720p".data) ⟨2, by decide⟩ (by decide) (by decide)⟩

/-! ## C4 -/

/-- The leftmost scan of the size pattern agrees with searching the
suffix list for the first match. -/
theorem sizeSearch_tails : ∀ t : Str,
    sizeSearch t = ((tailsOf t).find? (fun s => (matchSizeAt s).isSome)).bind matchSizeAt := by
  intro t
  induction t with
  | nil => simp [sizeSearch, tailsOf, List.find?, matchSizeAt]
  | cons c rest ih =>
    unfold sizeSearch tailsOf
    cases h : matchSizeAt (c :: rest) with
    | some r => simp [List.find?, h]
    | none => simp [List.find?, h, ih]

/-- C4: `extract_size` returns the render (number, one space, uppercased
unit) of the leftmost occurrence of the number-plus-MB/KB/GB pattern,
case-insensitively, and `unknown` when no position matches; concrete
instances included. -/
theorem c4_extract_size_spec :
    (∀ t : Str, extract_size t = size_spec t)
    ∧ extract_size ("Size: 12.5 MB".data) = ("12.5 MB".data)
    ∧ extract_size ("no numbers here".data) = ("unknown".data) := by
  refine ⟨fun t => ?_, by decide, by decide⟩
  unfold extract_size size_spec
  rw [sizeSearch_tails]
  cases hf : (tailsOf t).find? (fun s => (matchSizeAt s).isSome) with
  | none => simp
  | some s =>
    have hs := List.find?_some hf
    cases hm : matchSizeAt s with
    | none => rw [hm] at hs; simp at hs
    | some r => simp [hm]

/-! ## Dedup lemmas (C5, C10) -/

/-- The dedup loop output is a sublist (order-preserving selection) of
its input. -/
theorem dedupByUrl_sublist : ∀ (l : List MediaItem) (seen : List Str),
    List.Sublist (dedupByUrl l seen) l
  | [], _ => by simp [dedupByUrl]
  | a :: rest, seen => by
    unfold dedupByUrl
    cases h : seen.contains a.url with
    | true => simpa [h] using (dedupByUrl_sublist rest seen).cons a
    | false => simpa [h] using (dedupByUrl_sublist rest (a.url :: seen)).cons₂ a

/-- Every item kept by the dedup loop has a URL outside the seen set. -/
theorem dedupByUrl_not_seen : ∀ (l : List MediaItem) (seen : List Str) (it : MediaItem),
    it ∈ dedupByUrl l seen → seen.contains it.url = false
  | [], _, _ => by simp [dedupByUrl]
  | a :: rest, seen, it => by
    unfold dedupByUrl
    cases h : seen.contains a.url with
    | true =>
      intro hmem
      exact dedupByUrl_not_seen rest seen it (by simpa using hmem)
    | false =>
      intro hmem
      rcases (by simpa using hmem : it = a ∨ it ∈ dedupByUrl rest (a.url :: seen)) with
        rfl | hmem2
      · exact h
      · have h2 := dedupByUrl_not_seen rest (a.url :: seen) it hmem2
        simp only [List.contains_cons, Bool.or_eq_false_iff] at h2
        exact h2.2

/-- No two items kept by the dedup loop share a URL. -/
theorem dedupByUrl_nodup : ∀ (l : List MediaItem) (seen : List Str),
    ((dedupByUrl l seen).map (fun it => it.url)).Nodup
  | [], _ => by simp [dedupByUrl]
  | a :: rest, seen => by
    unfold dedupByUrl
    cases h : seen.contains a.url with
    | true => simpa [h] using dedupByUrl_nodup rest seen
    | false =>
      simp only [h, if_neg, Bool.false_eq_true, not_false_eq_true, List.map_cons,
        List.nodup_cons]
      refine ⟨fun hmem => ?_, dedupByUrl_nodup rest (a.url :: seen)⟩
      rcases List.mem_map.1 hmem with ⟨it, hit, hurl⟩
      have h2 := dedupByUrl_not_seen rest (a.url :: seen) it hit
      rw [hurl] at h2
      simp at h2

/-- A kept item is the first input item carrying its URL. -/
theorem dedupByUrl_find : ∀ (l : List MediaItem) (seen : List Str) (it : MediaItem),
    it ∈ dedupByUrl l seen → List.find? (fun x => x.url == it.url) l = some it
  | [], _, _ => by simp [dedupByUrl]
  | a :: rest, seen, it => by
    unfold dedupByUrl
    cases h : seen.contains a.url with
    | true =>
      intro hmem
      have hmem2 : it ∈ dedupByUrl rest seen := by simpa using hmem
      have hns := dedupByUrl_not_seen rest seen it hmem2
      have hne : (a.url == it.url) = false := by
        cases he : a.url == it.url with
        | true =>
          rw [beq_iff_eq] at he
          rw [← he] at hns
          rw [hns] at h
          simp at h
        | false => rfl
      rw [List.find?_cons_of_neg _ (by simp [hne])]
      exact dedupByUrl_find rest seen it hmem2
    | false =>
      intro hmem
      rcases (by simpa using hmem : it = a ∨ it ∈ dedupByUrl rest (a.url :: seen)) with
        rfl | hmem2
      · exact List.find?_cons_of_pos _ (by simp)
      · have hns := dedupByUrl_not_seen rest (a.url :: seen) it hmem2
        simp only [List.contains_cons, Bool.or_eq_false_iff] at hns
        have hne : (a.url == it.url) = false := by
          cases he : a.url == it.url with
          | true =>
            rw [beq_iff_eq] at he
            rw [he] at hns
            simp at hns
          | false => rfl
        rw [List.find?_cons_of_neg _ (by simp [hne])]
        exact dedupByUrl_find rest (a.url :: seen) it hmem2

/-- A URL of the input outside the seen set survives dedup. -/
theorem dedupByUrl_mem_url : ∀ (l : List MediaItem) (seen : List Str) (u : Str),
    u ∈ l.map (fun it => it.url) → seen.contains u = false →
    u ∈ (dedupByUrl l seen).map (fun it => it.url)
  | [], _, _ => by simp
  | a :: rest, seen, u => by
    intro hmem hc
    unfold dedupByUrl
    cases h : seen.contains a.url with
    | true =>
      rcases (by simpa using hmem : u = a.url ∨ u ∈ rest.map (fun it => it.url)) with
        rfl | hmem2
      · rw [hc] at h; simp at h
      · simpa [h] using dedupByUrl_mem_url rest seen u hmem2 hc
    | false =>
      by_cases heq : u = a.url
      · subst heq; simp [h]
      · rcases (by simpa using hmem : u = a.url ∨ u ∈ rest.map (fun it => it.url)) with
          rfl | hmem2
        · exact absurd rfl heq
        · have hc2 : (a.url :: seen).contains u = false := by
            simp only [List.contains_cons, Bool.or_eq_false_iff]
            refine ⟨?_, hc⟩
            cases he : u == a.url with
            | true => exact absurd (beq_iff_eq.1 he) heq
            | false => rfl
          simpa [h] using List.mem_cons_of_mem _
            (dedupByUrl_mem_url rest (a.url :: seen) u hmem2 hc2)

/-! ## C5 -/

/-- A page whose parse yields two anchors with the same href. -/
def anchorJ : Anchor :=
  ⟨[("btn-download".data)], some ("https://x/a.jpg".data), []⟩

def pageDup : Page := ⟨none, [anchorJ, anchorJ], []⟩

/-- C5: the media sequence of every extraction keeps no two items with
the same url, is an order-preserving selection of the collected
candidates, each kept item being the first-seen candidate with its url;
two anchors with identical href produce exactly one item with that
url. -/
theorem c5_dedup_spec :
    (∀ (unesc : Str → Str) (page : Page),
      ((uniqueItems unesc page).map (fun it => it.url)).Nodup
      ∧ List.Sublist (uniqueItems unesc page) (extractCandidates unesc page)
      ∧ (∀ it, it ∈ uniqueItems unesc page →
          (extractCandidates unesc page).find? (fun x => x.url == it.url) = some it))
    ∧ ((uniqueItems (fun s => s) pageDup).filter
        (fun it => it.url == ("https://x/a.jpg".data))).length = 1 := by
  refine ⟨fun unesc page => ⟨dedupByUrl_nodup _ _, dedupByUrl_sublist _ _,
    fun it hit => dedupByUrl_find _ _ it hit⟩, by decide⟩

/-- C5 witness: the first-seen characterization applied at the duplicate
page. -/
theorem c5_dedup_witness :
    (extractCandidates (fun s => s) pageDup).find?
      (fun x => x.url == (⟨("https://x/a.jpg".data), ("image".data), ("standard".data),
        ("unknown".data)⟩ : MediaItem).url)
      = some ⟨("https://x/a.jpg".data), ("image".data), ("standard".data), ("unknown".data)⟩ :=
  (c5_dedup_spec.1 (fun s => s) pageDup).2.2
    ⟨("https://x/a.jpg".data), ("image".data), ("standard".data), ("unknown".data)⟩ (by decide)

/-! ## C6 -/

/-- The classifier only ever returns one of its five literal results. -/
theorem get_media_type_cases (url : Str) :
    get_media_type url = ("reel".data) ∨ get_media_type url = ("story".data) ∨
    get_media_type url = ("igtv".data) ∨ get_media_type url = ("post".data) ∨
    get_media_type url = ("unknown".data) := by
  unfold get_media_type
  split_ifs <;> simp

/-- The fallback loop returns the first success, else the generic
error. -/
theorem tryFuncs_eq_find (rs : List DLResult) :
    tryFuncs rs = (rs.find? statusIsSuccess).getD (.error ("Unable to download media".data)) := by
  induction rs with
  | nil => simp [tryFuncs, List.find?]
  | cons r rest ih =>
    unfold tryFuncs
    cases h : statusIsSuccess r <;> simp [List.find?, h, ih]

/-- C6: `get_all` coincides with the spec's orchestrator: a known
classification delegates to exactly that type's endpoint; an unknown
classification tries reel, then post, then igtv (story never attempted)
and returns the first success, else the error `Unable to download
media`. -/
theorem c6_get_all_spec : ∀ (env : Str → FetchOutcome) (unesc : Str → Str) (url : Str),
    get_all env unesc url = resolveAuto_spec env unesc url := by
  intro env unesc url
  rcases get_media_type_cases url with h | h | h | h | h
  · simp [get_all, resolveAuto_spec, resolveByType, h]
  · simp [get_all, resolveAuto_spec, resolveByType, h]
  · simp [get_all, resolveAuto_spec, resolveByType, h]
  · simp [get_all, resolveAuto_spec, resolveByType, h]
  · simp only [get_all, resolveAuto_spec, resolveByType, h, tryFuncs_eq_find]
    simp only [List.cons_ne_self, if_neg, if_pos]
    cases hf : List.find? statusIsSuccess
        [get_reel env unesc url, get_post env unesc url, get_igtv env unesc url] <;>
      simp [hf]

/-! ## C7 -/

/-- Environment answering every request with the same outcome. -/
def constEnv (o : FetchOutcome) : Str → FetchOutcome := fun _ => o

def pageEmpty : Page := ⟨none, [], []⟩

/-- A page whose parse yields one HD video download button. -/
def anchorV : Anchor :=
  ⟨[("btn-download".data)], some ("https://x/v.mp4".data), ("HD 720p 10MB".data)⟩

def pageVid : Page := ⟨some (" title1 ".data), [anchorV], []⟩

/-- C7: every downloader result is either a success carrying the ordered
media, the page title as metadata and a count equal to the media length
with non-empty media, or an error carrying only a message — `Request
timeout` on timeout, the raised message on an exception, a failure
message on non-200, `No media found` on an empty parse; a non-empty
deduplicated parse yields exactly the success shape. -/
theorem c7_downloader_shape :
    (∀ (env : Str → FetchOutcome) (unesc : Str → Str) (url durl : Str),
      (∃ media title, download_from_snapdownloader env unesc url durl
          = .success media title media.length ∧ media ≠ [])
      ∨ (∃ m, download_from_snapdownloader env unesc url durl = .error m))
    ∧ (∀ (unesc : Str → Str) (url durl : Str),
        download_from_snapdownloader (constEnv .timeout) unesc url durl
          = .error ("Request timeout".data))
    ∧ (∀ (unesc : Str → Str) (url durl m : Str),
        download_from_snapdownloader (constEnv (.exn m)) unesc url durl = .error m)
    ∧ (∀ (unesc : Str → Str) (url durl : Str) (status : Nat) (page : Page), status ≠ 200 →
        download_from_snapdownloader (constEnv (.ok status page)) unesc url durl
          = .error (("Failed to load page: ".data) ++ natToStr status))
    ∧ (∀ (unesc : Str → Str) (url durl : Str) (page : Page), uniqueItems unesc page = [] →
        download_from_snapdownloader (constEnv (.ok 200 page)) unesc url durl
          = .error ("No media found".data))
    ∧ (∀ (unesc : Str → Str) (url durl : Str) (page : Page), uniqueItems unesc page ≠ [] →
        download_from_snapdownloader (constEnv (.ok 200 page)) unesc url durl
          = .success (uniqueItems unesc page) (page.title.map pyStrip)
              (uniqueItems unesc page).length) := by
  refine ⟨fun env unesc url durl => ?_, fun unesc url durl => rfl, fun unesc url durl m => rfl,
    fun unesc url durl status page h => ?_, fun unesc url durl page h => ?_,
    fun unesc url durl page h => ?_⟩
  · unfold download_from_snapdownloader processFetch
    cases env (durl ++ pctQuote url) with
    | timeout => exact Or.inr ⟨_, rfl⟩
    | exn m => exact Or.inr ⟨_, rfl⟩
    | ok status page =>
      dsimp only
      by_cases hs : status ≠ 200
      · rw [if_pos hs]
        exact Or.inr ⟨_, rfl⟩
      · rw [if_neg hs]
        cases hu : (dedupByUrl (extractCandidates unesc page) []).isEmpty with
        | true => rw [if_pos rfl]; exact Or.inr ⟨_, rfl⟩
        | false =>
          rw [if_neg (by simp)]
          exact Or.inl ⟨dedupByUrl (extractCandidates unesc page) [],
            page.title.map pyStrip, rfl, by simpa [List.isEmpty_iff] using hu⟩
  · unfold download_from_snapdownloader processFetch constEnv
    dsimp only
    rw [if_pos h]
  · unfold download_from_snapdownloader processFetch constEnv
    have hu : (dedupByUrl (extractCandidates unesc page) []).isEmpty = true := by
      rw [List.isEmpty_iff]; exact h
    dsimp only
    rw [if_neg (by simp), if_pos hu]
  · unfold download_from_snapdownloader processFetch constEnv
    have hu : (dedupByUrl (extractCandidates unesc page) []).isEmpty = false := by
      rw [Bool.eq_false_iff]
      exact fun ht => h (List.isEmpty_iff.1 ht)
    dsimp only
    rw [if_neg (by simp), if_neg (by simp [hu])]
    rfl

/-- C7 witness: the error and success shapes at concrete fetch
outcomes. -/
theorem c7_downloader_witness :
    download_from_snapdownloader (constEnv (.ok 404 pageEmpty)) (fun s => s)
        ("u".data) ("d".data)
      = .error (("Failed to load page: ".data) ++ natToStr 404)
    ∧ download_from_snapdownloader (constEnv (.ok 200 pageEmpty)) (fun s => s)
        ("u".data) ("d".data) = .error ("No media found".data)
    ∧ download_from_snapdownloader (constEnv (.ok 200 pageVid)) (fun s => s)
        ("u".data) ("d".data)
      = .success (uniqueItems (fun s => s) pageVid) (pageVid.title.map pyStrip)
          (uniqueItems (fun s => s) pageVid).length :=
  ⟨c7_downloader_shape.2.2.2.1 (fun s => s) ("u".data) ("d".data) 404 pageEmpty (by decide),
   c7_downloader_shape.2.2.2.2.1 (fun s => s) ("u".data) ("d".data) pageEmpty (by decide),
   c7_downloader_shape.2.2.2.2.2 (fun s => s) ("u".data) ("d".data) pageVid (by decide)⟩

/-! ## C8 -/

theorem lookupRL_setRL : ∀ (st : RLState) (ip : Str) (v : Nat × Int),
    lookupRL (setRL st ip v) ip = some v
  | [], ip, v => by simp [setRL, lookupRL, List.find?]
  | e :: rest, ip, v => by
    unfold setRL
    cases h : e.1 == ip with
    | true => simp [lookupRL, List.find?]
    | false =>
      have ih := lookupRL_setRL rest ip v
      simp only [lookupRL, List.find?, h] at ih ⊢
      exact ih

theorem runSeq_append (ip : Str) : ∀ (l₁ l₂ : List Int) (st : RLState),
    runSeq st ip (l₁ ++ l₂)
      = ((runSeq st ip l₁).1 ++ (runSeq (runSeq st ip l₁).2 ip l₂).1,
         (runSeq (runSeq st ip l₁).2 ip l₂).2)
  | [], l₂, st => by simp [runSeq]
  | t :: ts, l₂, st => by
    simp only [List.cons_append, runSeq]
    rw [List.append_eq, runSeq_append ip ts l₂]

/-- While the window is open and the count headroom suffices, every
request is admitted and the counter advances, the window timestamp
unchanged. -/
theorem runSeq_admits : ∀ (ts : List Int) (st : RLState) (ip : Str) (t₀ : Int) (k : Nat),
    lookupRL st ip = some (k, t₀) → 1 ≤ k → k + ts.length ≤ 100 →
    (∀ t ∈ ts, t - t₀ ≤ 3600) →
    (runSeq st ip ts).1 = List.replicate ts.length true
    ∧ lookupRL (runSeq st ip ts).2 ip = some (k + ts.length, t₀)
  | [], st, ip, t₀, k => fun hlk _ _ _ => by simp [runSeq, hlk]
  | t :: ts, st, ip, t₀, k => fun hlk hk1 hk100 hw => by
    have hwin : ¬ t - t₀ > 3600 := by
      have := hw t (List.mem_cons_self t ts)
      omega
    have hcnt : ¬ k ≥ 100 := by
      have := List.length_cons t ts ▸ hk100
      omega
    have hstep : check_rate_limit st ip t = (true, setRL st ip (k + 1, t₀)) := by
      unfold check_rate_limit
      rw [hlk]
      dsimp only
      rw [if_neg hwin, if_neg hcnt]
    have ih := runSeq_admits ts (setRL st ip (k + 1, t₀)) ip t₀ (k + 1)
      (lookupRL_setRL st ip (k + 1, t₀)) (by omega)
      (by simp [List.length_cons] at hk100; omega)
      (fun x hx => hw x (List.mem_cons_of_mem t hx))
    simp only [runSeq, hstep]
    refine ⟨?_, ?_⟩
    · simp [ih.1, List.replicate_succ]
    · rw [ih.2]
      simp [List.length_cons]
      omega

/-- Once the counter reached 100 inside the window, every further
in-window request is rejected and the state is left unchanged. -/
theorem runSeq_rejects : ∀ (ts : List Int) (st : RLState) (ip : Str) (t₀ : Int),
    lookupRL st ip = some (100, t₀) → (∀ t ∈ ts, t - t₀ ≤ 3600) →
    runSeq st ip ts = (List.replicate ts.length false, st)
  | [], st, ip, t₀ => fun _ _ => by simp [runSeq]
  | t :: ts, st, ip, t₀ => fun hlk hw => by
    have hwin : ¬ t - t₀ > 3600 := by
      have := hw t (List.mem_cons_self t ts)
      omega
    have hstep : check_rate_limit st ip t = (false, st) := by
      unfold check_rate_limit
      rw [hlk]
      dsimp only
      rw [if_neg hwin, if_pos (by omega)]
    simp only [runSeq, hstep]
    rw [runSeq_rejects ts st ip t₀ hlk (fun x hx => hw x (List.mem_cons_of_mem t hx))]
    simp [List.replicate_succ]

/-- C8: starting from a state with no entry for the address, 101
requests inside one hour window are answered with 100 admissions
followed by one rejection; a rejected non-health request is answered
429 with the fixed message and unchanged state; once strictly more than
3600 seconds passed since the window start the window resets to a fresh
admitted request; `/health` requests never touch the limiter. -/
theorem c8_rate_limit_spec :
    (∀ (ip : Str) (t₀ : Int) (ts₁ : List Int) (tlast : Int),
      ts₁.length = 99 → (∀ t ∈ ts₁, t - t₀ ≤ 3600) → tlast - t₀ ≤ 3600 →
      (runSeq [] ip (t₀ :: (ts₁ ++ [tlast]))).1 = List.replicate 100 true ++ [false])
    ∧ (∀ (st : RLState) (path ip : Str) (now : Int), path ≠ ("/health".data) →
        (check_rate_limit st ip now).1 = false →
        before_request st path ip now
          = (some (429, ("Rate limit exceeded. Please try again later.".data)),
             (check_rate_limit st ip now).2))
    ∧ (∀ (st : RLState) (ip : Str) (now : Int) (count : Nat) (ts : Int),
        lookupRL st ip = some (count, ts) → now - ts > 3600 →
        check_rate_limit st ip now = (true, setRL st ip (1, now)))
    ∧ (∀ (st : RLState) (ip : Str) (now : Int),
        before_request st ("/health".data) ip now = (none, st)) := by
  refine ⟨fun ip t₀ ts₁ tlast h99 hw hl => ?_, fun st path ip now hp hrej => ?_,
    fun st ip now count ts hlk hwin => ?_, fun st ip now => ?_⟩
  · have hstep : check_rate_limit [] ip t₀ = (true, [(ip, (1, t₀))]) := by
      unfold check_rate_limit lookupRL
      simp [List.find?, setRL]
    have hlk1 : lookupRL [(ip, (1, t₀))] ip = some (1, t₀) := by
      simp [lookupRL, List.find?]
    have hA := runSeq_admits ts₁ [(ip, (1, t₀))] ip t₀ 1 hlk1 (by omega) (by omega) hw
    have hB := runSeq_rejects [tlast] (runSeq [(ip, (1, t₀))] ip ts₁).2 ip t₀
      (by rw [hA.2, h99]) (by intro x hx; simp at hx; omega)
    simp only [runSeq, hstep]
    rw [runSeq_append ip ts₁ [tlast], hA.1, hB]
    simp [h99, List.replicate_succ]
  · unfold before_request
    rw [if_neg hp]
    have : check_rate_limit st ip now = (false, (check_rate_limit st ip now).2) := by
      rw [← hrej]
    rw [this]
  · unfold check_rate_limit
    rw [hlk]
    dsimp only
    rw [if_pos hwin]
  · unfold before_request
    rw [if_pos rfl]

/-- C8 witness: the window behaviour at concrete addresses and times. -/
theorem c8_rate_limit_witness :
    (runSeq [] ("1.2.3.4".data) ((0 : Int) :: (List.replicate 99 (0 : Int) ++ [(0 : Int)]))).1
      = List.replicate 100 true ++ [false]
    ∧ before_request [(("ip".data), (100, (0 : Int)))] ("/x".data) ("ip".data) 5
      = (some (429, ("Rate limit exceeded. Please try again later.".data)),
         (check_rate_limit [(("ip".data), (100, (0 : Int)))] ("ip".data) 5).2)
    ∧ check_rate_limit [(("ip".data), (7, (0 : Int)))] ("ip".data) 4000
      = (true, setRL [(("ip".data), (7, (0 : Int)))] ("ip".data) (1, 4000))
    ∧ before_request [] ("/health".data) ("ip".data) 5 = (none, []) :=
  ⟨c8_rate_limit_spec.1 ("1.2.3.4".data) 0 (List.replicate 99 (0 : Int)) 0
      (by decide) (by decide) (by decide),
   c8_rate_limit_spec.2.1 [(("ip".data), (100, (0 : Int)))] ("/x".data) ("ip".data) 5
      (by decide) (by decide),
   c8_rate_limit_spec.2.2.1 [(("ip".data), (7, (0 : Int)))] ("ip".data) 4000 7 0
      (by decide) (by decide),
   c8_rate_limit_spec.2.2.2 [] ("ip".data) 5⟩

/-! ## C9 -/

/-- C9: a present proxy url parameter containing none of the allowlisted
extensions (case-insensitively) is answered 400 `Invalid media URL`
regardless of the remote host's behaviour — the remote is never
consulted; in particular `https://x/file.exe` is rejected. -/
theorem c9_proxy_guard_spec :
    (∀ (remote : Str → RemoteResult) (url : Str),
      (∀ e ∈ proxyExts, occursIn e (lower url) = false) →
      proxy_download remote (some url) = .badRequest ("Invalid media URL".data))
    ∧ (∀ (remote remote2 : Str → RemoteResult) (url : Str),
        (∀ e ∈ proxyExts, occursIn e (lower url) = false) →
        proxy_download remote (some url) = proxy_download remote2 (some url))
    ∧ (∀ remote : Str → RemoteResult,
        proxy_download remote (some ("https://x/file.exe".data))
          = .badRequest ("Invalid media URL".data)) := by
  have hmain : ∀ (remote : Str → RemoteResult) (url : Str),
      (∀ e ∈ proxyExts, occursIn e (lower url) = false) →
      proxy_download remote (some url) = .badRequest ("Invalid media URL".data) := by
    intro remote url h
    unfold proxy_download
    have hany : proxyExts.any (fun e => occursIn e (lower url)) = false := by
      rw [List.any_eq_false]
      intro e he
      simp [h e he]
    dsimp only
    rw [if_pos (by simp [hany])]
  refine ⟨hmain, fun remote remote2 url h => ?_, fun remote => ?_⟩
  · rw [hmain remote url h, hmain remote2 url h]
  · exact hmain remote ("https://x/file.exe".data) (by decide)

/-- C9 witness: the guard at the concrete `.exe` url and an arbitrary
concrete remote. -/
theorem c9_proxy_guard_witness :
    proxy_download (fun _ => RemoteResult.raises []) (some ("https://x/file.exe".data))
      = .badRequest ("Invalid media URL".data) :=
  c9_proxy_guard_spec.1 (fun _ => RemoteResult.raises []) ("https://x/file.exe".data)
    (by decide)

/-! ## C10 -/

/-- A download-button anchor satisfying the video condition contributes
its item to the video pass. -/
theorem videoCandidates_mem (unesc : Str → Str) (anchors : List Anchor) (a : Anchor)
    (ha : a ∈ anchors) (hsel : videoSelMatch a = true)
    (hne : (unesc (a.href.getD [])).isEmpty = false)
    (hcond : (occursIn (".mp4".data) (unesc (a.href.getD []))
        || occursIn ("video".data) (lower (pyStrip a.text))) = true) :
    (⟨unesc (a.href.getD []), ("video".data), extract_quality (lower (pyStrip a.text)),
        extract_size (lower (pyStrip a.text))⟩ : MediaItem)
      ∈ videoCandidates unesc anchors := by
  unfold videoCandidates
  refine List.mem_filterMap.2 ⟨a, List.mem_filter.2 ⟨ha, hsel⟩, ?_⟩
  dsimp only
  rw [if_neg (by simp [hne]), if_pos hcond]

/-- Every item of the video pass is typed `video`. -/
theorem videoCandidates_type (unesc : Str → Str) (anchors : List Anchor) (it : MediaItem)
    (h : it ∈ videoCandidates unesc anchors) : it.type = ("video".data) := by
  unfold videoCandidates at h
  rcases List.mem_filterMap.1 h with ⟨a, -, hf⟩
  dsimp only at hf
  by_cases h1 : (unesc (a.href.getD [])).isEmpty = true
  · rw [if_pos h1] at hf
    exact absurd hf (by simp)
  · rw [if_neg h1] at hf
    by_cases h2 : (occursIn (".mp4".data) (unesc (a.href.getD []))
        || occursIn ("video".data) (lower (pyStrip a.text))) = true
    · rw [if_pos h2] at hf
      cases hf
      rfl
    · rw [if_neg h2] at hf
      exact absurd hf (by simp)

/-- A page whose single anchor is a download button with an image href
but video link text. -/
def anchorX : Anchor :=
  ⟨[("btn-download".data)], some ("https://x/pic.jpg".data), ("Video here".data)⟩

def pageMix : Page := ⟨none, [anchorX], []⟩

/-- C10: an anchor matched by the download-button class selectors whose
unescaped href carries an image extension but which satisfies the video
condition (href contains `.mp4` or text contains `video`) surfaces in
the extraction output with its url typed `video`, never `image`: the
video pass precedes the image pass and dedup keeps the first-seen
classification. -/
theorem c10_video_priority : ∀ (unesc : Str → Str) (page : Page) (a : Anchor),
    a ∈ page.anchors →
    (a.classes.contains ("btn-download".data)
      || a.classes.contains ("download-button".data)) = true →
    (occursIn (".jpg".data) (unesc (a.href.getD []))
      || occursIn (".jpeg".data) (unesc (a.href.getD []))
      || occursIn (".png".data) (unesc (a.href.getD []))) = true →
    (occursIn (".mp4".data) (unesc (a.href.getD []))
      || occursIn ("video".data) (lower (pyStrip a.text))) = true →
    (∃ it, it ∈ uniqueItems unesc page ∧ it.url = unesc (a.href.getD [])
        ∧ it.type = ("video".data))
    ∧ (∀ it, it ∈ uniqueItems unesc page → it.url = unesc (a.href.getD []) →
        it.type = ("video".data)) := by
  intro unesc page a ha hbtn himg hcond
  have hne : (unesc (a.href.getD [])).isEmpty = false := by
    cases hu : unesc (a.href.getD []) with
    | nil =>
      rw [hu] at himg
      simp [occursIn] at himg
    | cons c rest => simp [List.isEmpty]
  have hsel : videoSelMatch a = true := by
    unfold videoSelMatch
    rcases Bool.or_eq_true_iff.1 hbtn with h | h <;> rw [h] <;> simp
  have hv := videoCandidates_mem unesc page.anchors a ha hsel hne hcond
  have hmemc : (⟨unesc (a.href.getD []), ("video".data),
      extract_quality (lower (pyStrip a.text)), extract_size (lower (pyStrip a.text))⟩ :
        MediaItem) ∈ extractCandidates unesc page := by
    unfold extractCandidates
    exact List.mem_append_left _ (List.mem_append_left _ hv)
  have humap : unesc (a.href.getD []) ∈ (extractCandidates unesc page).map (fun it => it.url) :=
    List.mem_map.2 ⟨_, hmemc, rfl⟩
  have hu2 : unesc (a.href.getD []) ∈ (uniqueItems unesc page).map (fun it => it.url) :=
    dedupByUrl_mem_url _ [] _ humap rfl
  rcases List.mem_map.1 hu2 with ⟨it, hit, hurl⟩
  have hvsome : (List.find? (fun x => x.url == unesc (a.href.getD []))
      (videoCandidates unesc page.anchors)).isSome :=
    List.find?_isSome.2 ⟨_, hv, by simp⟩
  rcases Option.isSome_iff_exists.1 hvsome with ⟨w, hw⟩
  have hall : List.find? (fun x => x.url == unesc (a.href.getD []))
      (extractCandidates unesc page) = some w := by
    unfold extractCandidates
    rw [List.find?_append, List.find?_append, hw]
    rfl
  have hwtype : w.type = ("video".data) :=
    videoCandidates_type unesc page.anchors w (List.mem_of_find?_eq_some hw)
  have key : ∀ it2, it2 ∈ uniqueItems unesc page → it2.url = unesc (a.href.getD []) →
      it2 = w := by
    intro it2 h2 hu3
    have hf2 := dedupByUrl_find _ _ it2 h2
    rw [hu3] at hf2
    rw [hall] at hf2
    exact (Option.some.inj hf2).symm
  refine ⟨⟨it, hit, hurl, ?_⟩, fun it2 h2 hu3 => ?_⟩
  · rw [key it hit hurl]
    exact hwtype
  · rw [key it2 h2 hu3]
    exact hwtype

/-- C10 witness: the mixed anchor page yields the url typed `video`. -/
theorem c10_video_priority_witness :
    ∃ it, it ∈ uniqueItems (fun s => s) pageMix
      ∧ it.url = (fun (s : Str) => s) (anchorX.href.getD [])
      ∧ it.type = ("video".data) :=
  (c10_video_priority (fun s => s) pageMix anchorX (by decide) (by decide)
    (by decide) (by decide)).1

end IgDl
